import Mathlib

/-!
Verification of the RFID reader protocol core (frame codec, frame
scanner/decoder, and the pure decision logic of the orchestration state
machines) against its specification.

The source is TypeScript.  Byte buffers (JS `Uint8Array`) are modelled as
`List Nat` whose entries are byte values 0..255; every write into a
`Uint8Array` in the source is mirrored here by an explicit `&&& 0xFF` /
`% 256`, exactly as the JS engine coerces stored values, so the
definitions agree with the source on the whole domain of the original
functions.  JS `undefined` produced by out-of-range indexing is modelled
with `Option`.
-/

namespace RFID

/-- Hex digit characters, uppercase, as produced by
`b.toString(16).padStart(2, '0').toUpperCase()` in the source. -/
def hexDigitChar (n : Nat) : Char :=
  if n < 10 then Char.ofNat (48 + n) else Char.ofNat (55 + n)

/-- Rendering of one byte as two uppercase hex digits (source:
`b.toString(16).padStart(2, '0').toUpperCase()`, for byte values 0..255). -/
def byteToHex (b : Nat) : String :=
  String.mk [hexDigitChar (b / 16 % 16), hexDigitChar (b % 16)]

/-- Source `uint8ArrayToHex`: bytes rendered as uppercase hex pairs joined
with single spaces. -/
def uint8ArrayToHex (data : List Nat) : String :=
  String.intercalate " " (data.map byteToHex)

/-- Whitespace removal, source idiom `s.replace(/\s/g, '')`. -/
def stripWhitespace (s : String) : String :=
  String.mk (s.data.filter (fun c => ¬ c.isWhitespace))

/-- The source's `uint8ArrayToHex(..).replace(/\s/g, '')` idiom used for
error codes: hex pairs with the separating spaces removed. -/
def hexNoSpace (data : List Nat) : String :=
  stripWhitespace (uint8ArrayToHex data)

/-- Value of one hex digit character (either case), `none` when the
character is not a hex digit. -/
def hexDigitVal (c : Char) : Option Nat :=
  if '0' ≤ c ∧ c ≤ '9' then some (c.toNat - 48)
  else if 'a' ≤ c ∧ c ≤ 'f' then some (c.toNat - 87)
  else if 'A' ≤ c ∧ c ≤ 'F' then some (c.toNat - 55)
  else none

/-- Accumulate the value of the longest run of leading hex digits,
mirroring how JS `parseInt` consumes digits and stops at the first
non-digit. -/
def hexRunVal : List Char → Nat → Nat
  | [], acc => acc
  | c :: cs, acc =>
    match hexDigitVal c with
    | some v => hexRunVal cs (acc * 16 + v)
    | none => acc

/-- Model of JS `parseInt(s, 16)`: skip leading whitespace, consume an
optional sign and an optional `0x`/`0X` prefix, then the longest run of
hex digits; `none` models the `NaN` result when no digit is found.
(Float inexactness for astronomically long digit runs is not modelled.) -/
def jsParseIntHex (s : String) : Option Int :=
  let cs0 := s.data.dropWhile (fun c => c.isWhitespace)
  let signAndRest : Int × List Char :=
    match cs0 with
    | '-' :: rest => (-1, rest)
    | '+' :: rest => (1, rest)
    | _ => (1, cs0)
  let sign := signAndRest.1
  let cs1 :=
    match signAndRest.2 with
    | '0' :: 'x' :: rest => rest
    | '0' :: 'X' :: rest => rest
    | _ => signAndRest.2
  match cs1 with
  | [] => none
  | c :: _ =>
    match hexDigitVal c with
    | none => none
    | some _ => some (sign * Int.ofNat (hexRunVal cs1 0))

/-- Grouping into chunks of at most two characters, source idiom
`s.match(/.{1,2}/g)` (on whitespace-free input). -/
def chunkPairs : List Char → List (List Char)
  | [] => []
  | [c] => [[c]]
  | a :: b :: rest => [a, b] :: chunkPairs rest

/-- JS `String.fromCharCode(v)`: ToUint16 of the argument (`NaN`,
modelled as `none`, maps to code 0). -/
def jsFromCharCode (v : Option Int) : Char :=
  match v with
  | none => Char.ofNat 0
  | some x => Char.ofNat ((x % 65536).toNat)

/-- Source `hexToAscii`: strip whitespace, split into 2-character chunks,
decode each chunk with `parseInt(chunk, 16)` and `String.fromCharCode`. -/
def hexToAscii (hexStr : String) : String :=
  let hex := stripWhitespace hexStr
  String.mk ((chunkPairs hex.data).map (fun cs => jsFromCharCode (jsParseIntHex (String.mk cs))))

/-- Source `calculateXOR`: `data.reduce((acc, byte) => acc ^ byte, 0)`. -/
def calculateXOR (data : List Nat) : Nat :=
  data.foldl Nat.xor 0

/-- High byte of a parsed (possibly negative) address, source idiom
`(addr >> 8) & 0xFF` (arithmetic shift is floor division by 256, and
`& 0xFF` of the result is its value mod 256). -/
def intByteHi (x : Int) : Nat := ((x.fdiv 256) % 256).toNat

/-- Low byte of a parsed (possibly negative) address, source idiom
`addr & 0xFF`. -/
def intByteLo (x : Int) : Nat := (x % 256).toNat

/-- Byte stored into a `Uint8Array` from a JS number that may be `NaN`
(modelled as `none`): ToUint8 semantics. -/
def toUint8 (v : Option Int) : Nat :=
  match v with
  | none => 0
  | some x => (x % 256).toNat

/-- Source `build64HRequest` (Read EPC Data Advance): 17-byte frame. -/
def build64HRequest (id antenna power timeoutMs maxRecords : Nat) : List Nat :=
  let count := if maxRecords > 0 then maxRecords else 0xFFFFFFFF
  let body : List Nat :=
    [0x80, 0x00, 0x0E, 0x64, id &&& 0xFF, antenna &&& 0xFF,
     (power >>> 8) &&& 0xFF, power &&& 0xFF,
     (timeoutMs >>> 24) &&& 0xFF, (timeoutMs >>> 16) &&& 0xFF,
     (timeoutMs >>> 8) &&& 0xFF, timeoutMs &&& 0xFF,
     (count >>> 24) &&& 0xFF, (count >>> 16) &&& 0xFF,
     (count >>> 8) &&& 0xFF, count &&& 0xFF]
  body ++ [calculateXOR body]

/-- Source `build61HRequest` (Read EPC Data Auto Power): 7-byte frame. -/
def build61HRequest (id antenna : Nat) : List Nat :=
  let body : List Nat := [0x80, 0x00, 0x04, 0x61, id &&& 0xFF, antenna &&& 0xFF]
  body ++ [calculateXOR body]

/-- Source `build63HRequest` (Read User Memory Data With Auto Power):
10-byte frame; `addrHex` is parsed with `parseInt(addrHex, 16) || 0`. -/
def build63HRequest (id antenna : Nat) (addrHex : String) (lenWord : Nat) : List Nat :=
  let addr : Int := (jsParseIntHex addrHex).getD 0
  let body : List Nat :=
    [0x80, 0x00, 0x07, 0x63, id &&& 0xFF, antenna &&& 0xFF,
     intByteHi addr, intByteLo addr, lenWord &&& 0xFF]
  body ++ [calculateXOR body]

/-- Source `build35HRequest` (Read FW Version): 6-byte frame. -/
def build35HRequest (id : Nat) : List Nat :=
  let body : List Nat := [0x80, 0x00, 0x03, 0x35, id &&& 0xFF]
  body ++ [calculateXOR body]

/-- Source `buildF0HRequest` (Enter Update Mode): 6-byte frame. -/
def buildF0HRequest (id : Nat) : List Nat :=
  let body : List Nat := [0x80, 0x00, 0x03, 0xF0, id &&& 0xFF]
  body ++ [calculateXOR body]

/-- Source `buildF1HRequest` (Transmit Update Packet): 520-byte frame.
The 520-byte zero-initialised array receives `data512` at offset 7
(`packet.set(data512, 7)`) and the checksum overwrites index 519; this is
expressed as padding the payload to the 513 writable positions and
keeping the first 519 bytes as the checksummed body.  Elements of the
`Uint8Array` argument are bytes, mirrored by `% 256`. -/
def buildF1HRequest (id count : Nat) (data512 : List Nat) : List Nat :=
  let d := data512.map (fun b => b % 256)
  let base : List Nat :=
    [0x80, 0x02, 0x05, 0xF1, id &&& 0xFF, (count >>> 8) &&& 0xFF, count &&& 0xFF]
      ++ d ++ List.replicate (513 - d.length) 0
  let body := base.take 519
  body ++ [calculateXOR body]

/-- Source `buildF2HRequest` (Start FW Update): 6-byte frame. -/
def buildF2HRequest (id : Nat) : List Nat :=
  let body : List Nat := [0x80, 0x00, 0x03, 0xF2, id &&& 0xFF]
  body ++ [calculateXOR body]

/-- Source `build70HRequest` (Write Tag Data): `(25 + n)`-byte frame where
`n` is the number of payload chunks parsed from `dataHex`
(`dataHex.replace(/\s/g, '').match(/.{1,2}/g)?.map(b => parseInt(b, 16)) || []`,
each stored with ToUint8 coercion). -/
def build70HRequest (id antenna power : Nat) (addrHex : String) (lenWord : Nat)
    (dataHex : String) : List Nat :=
  let dataBytes : List Nat :=
    (chunkPairs (stripWhitespace dataHex).data).map
      (fun cs => toUint8 (jsParseIntHex (String.mk cs)))
  let n := dataBytes.length
  let packetLen := 22 + n
  let addr : Int := (jsParseIntHex addrHex).getD 0
  let body : List Nat :=
    [0x80, (packetLen >>> 8) &&& 0xFF, packetLen &&& 0xFF, 0x70,
     id &&& 0xFF, antenna &&& 0xFF, 0x01, power &&& 0xFF, 0xFF]
      ++ List.replicate 12 0
      ++ [intByteHi addr, intByteLo addr, lenWord &&& 0xFF]
      ++ dataBytes
  body ++ [calculateXOR body]

/-- Source `DecodedPacket`.  Fields that JS leaves `undefined` (optional
fields, and reads past the end of a frame) are modelled with `Option`. -/
structure DecodedPacket where
  cmd : Option Nat
  status : Option Nat
  id : Option Nat
  count : Option Nat
  errorCode : String
  epc : Option String
  userData : Option String
  fwVersion : Option String
  updateCount : Option Nat
  currentPacketNum : Option Nat
  raw : String
deriving DecidableEq, Repr

/-- JS `packet.slice(a, b)` for the in-range uses in the decoder. -/
def sliceJS (l : List Nat) (a b : Nat) : List Nat :=
  (l.drop a).take (b - a)

/-- Big-endian 32-bit read, source idiom
`((p[i] << 24) | (p[i+1] << 16) | (p[i+2] << 8) | p[i+3]) >>> 0`
(for byte values this equals the unsigned recombination). -/
def word32At (p : List Nat) (i : Nat) : Nat :=
  (p.getD i 0 <<< 24) ||| (p.getD (i+1) 0 <<< 16) ||| (p.getD (i+2) 0 <<< 8) ||| p.getD (i+3) 0

/-- Big-endian 16-bit read, source idiom `(p[i] << 8) | p[i+1]`. -/
def word16At (p : List Nat) (i : Nat) : Nat :=
  (p.getD i 0 <<< 8) ||| p.getD (i+1) 0

/-- The per-command decode step of `scanAllPackets`, applied to one
complete sliced frame (source lines 237..306 of `protocol.ts`). -/
def decodePacket (packet : List Nat) : DecodedPacket :=
  let cmd := packet[3]?
  let base : DecodedPacket :=
    { cmd := cmd, status := none, id := packet[4]?, count := none,
      errorCode := "N/A", epc := none, userData := none, fwVersion := none,
      updateCount := none, currentPacketNum := none,
      raw := uint8ArrayToHex packet }
  if cmd = some 0x64 then
    let status := packet[6]?
    let d := { base with status := status }
    if status = some 0x01 then
      if packet.length ≥ 14 then
        { d with count := some (word32At packet 7),
                 errorCode := hexNoSpace (sliceJS packet 11 13) }
      else d
    else if status = some 0x00 then
      let countIdx := packet.length - 7
      let errorIdx := packet.length - 3
      let d' := { d with count := some (word32At packet countIdx),
                         errorCode := hexNoSpace (sliceJS packet errorIdx (errorIdx + 2)) }
      let epcLen := packet.length - 17
      if epcLen > 0 then
        { d' with epc := some (uint8ArrayToHex (sliceJS packet 9 (9 + epcLen))) }
      else d'
    else d
  else if cmd = some 0x61 then
    if packet.length ≥ 7 then
      let d := { base with
        errorCode := hexNoSpace (sliceJS packet (packet.length - 3) (packet.length - 1)) }
      if packet.length > 10 then
        { d with epc := some (uint8ArrayToHex (sliceJS packet 9 (packet.length - 3))) }
      else d
    else base
  else if cmd = some 0x63 then
    if packet.length ≥ 9 then
      let d := { base with
        errorCode := hexNoSpace (sliceJS packet (packet.length - 3) (packet.length - 1)) }
      if packet.length > 12 then
        { d with userData := some (uint8ArrayToHex (sliceJS packet 9 (packet.length - 3))) }
      else d
    else base
  else if cmd = some 0x70 then
    if packet.length ≥ 9 then
      { base with errorCode := hexNoSpace (sliceJS packet 6 8) }
    else base
  else if cmd = some 0x35 then
    { base with
      errorCode := hexNoSpace (sliceJS packet (packet.length - 3) (packet.length - 1)),
      fwVersion := some (hexToAscii (uint8ArrayToHex (sliceJS packet 5 (packet.length - 3)))) }
  else if cmd = some 0xF0 then
    let d := { base with errorCode := "0001" }
    if packet.length ≥ 10 then
      { d with updateCount := some (word32At packet 5) }
    else d
  else if cmd = some 0xF1 then
    if packet.length ≥ 9 then
      { base with currentPacketNum := some (word16At packet 5),
                  errorCode := hexNoSpace (sliceJS packet 7 9) }
    else base
  else if cmd = some 0xF2 then
    if packet.length ≥ 8 then
      { base with errorCode := hexNoSpace (sliceJS packet 5 7) }
    else base
  else base

/-- The 2-byte big-endian length field read at a scan position, source
idiom `(buffer[i + 1] << 8) | buffer[i + 2]`. -/
def dataLenAt (buffer : List Nat) (i : Nat) : Nat :=
  (buffer.getD (i+1) 0 <<< 8) ||| buffer.getD (i+2) 0

/-- The scanning loop of `scanAllPackets` from position `i`: at a `0x08`
start byte with a complete header and a frame that fits the buffer,
slice and decode the frame and jump past it; in every other case advance
one byte (source lines 230..313 of `protocol.ts`).  The loop is written
with an explicit step budget (`fuel`) so that it is structurally
recursive and computable by the kernel; since every step advances `i` by
at least one, any budget of at least `buffer.length - i` steps yields
the exact behaviour of the unbounded source loop
(`scanFromFuel_congr` below). -/
def scanFromFuel : Nat → List Nat → Nat → List DecodedPacket
  | 0, _, _ => []
  | fuel + 1, buffer, i =>
    if buffer.length ≤ i then []
    else if buffer.getD i 0 = 0x08 then
      if i + 3 ≤ buffer.length then
        if i + dataLenAt buffer i + 3 ≤ buffer.length then
          decodePacket ((buffer.drop i).take (dataLenAt buffer i + 3))
            :: scanFromFuel fuel buffer (i + dataLenAt buffer i + 3)
        else scanFromFuel fuel buffer (i + 1)
      else scanFromFuel fuel buffer (i + 1)
    else scanFromFuel fuel buffer (i + 1)

/-- The scanning loop from position `i`, with the sufficient budget. -/
def scanFrom (buffer : List Nat) (i : Nat) : List DecodedPacket :=
  scanFromFuel (buffer.length - i) buffer i

set_option linter.unusedVariables false in
/-- Source `scanAllPackets`.  The `expectedCmd` argument is present in
the source signature but never consulted by the body. -/
def scanAllPackets (buffer : List Nat) (expectedCmd : String) : List DecodedPacket :=
  scanFrom buffer 0

/-- A frame whose final byte is the XOR of all preceding bytes. -/
def checksummed (frame : List Nat) : Prop :=
  frame.getLast? = some (calculateXOR frame.dropLast)


/-- A buffer position that starts a truncated frame: it holds the
response start byte `0x08` but either the 3-byte header or the frame
claimed by the length field extends past the end of the buffer. -/
def noTruncatedHeader (B : List Nat) : Prop :=
  ∀ i < B.length, ¬ (B.getD i 0 = 0x08 ∧
    (B.length < i + 3 ∨ B.length < i + dataLenAt B i + 3))

instance (B : List Nat) : Decidable (noTruncatedHeader B) := by
  unfold noTruncatedHeader
  exact Nat.decidableBallLT _ _


/-!
Executor and update-flow models, translated from `App.tsx`: the pure
per-packet processing step of `runSingleTest`, its outcome
classification, the `F1H` page-acknowledgment test of
`runFirmwareUpdate`, and the post-update version comparison.
-/

/-- The mutable per-cycle state of `runSingleTest` (`App.tsx` lines
281..326): the raw-frame deduplication set, the completion flag, the
final error code, the deduplicated tag list, and the payload fields. -/
structure RunState where
  processedRaw : List String
  isFinished : Bool
  finalErrorCode : String
  epcList : List String
  userData : String
  fwVersion : String
deriving DecidableEq, Repr

/-- The state at the start of a cycle (`App.tsx` line 281). -/
def initRunState : RunState :=
  { processedRaw := [], isFinished := false, finalErrorCode := "N/A",
    epcList := [], userData := "", fwVersion := "" }

/-- The source idiom `isFinished = true; finalErrorCode = p.errorCode`
appearing in every completion branch of `runSingleTest`. -/
def finishWith (code : String) (st : RunState) : RunState :=
  { st with isFinished := true, finalErrorCode := code }

/-- The source idiom
`if (p.epc) { if (!epcList.includes(p.epc)) epcList.push(p.epc) }`:
push a tag id onto the deduplicated list when it is present (JS
truthiness excludes `undefined` and the empty string) and new. -/
def pushEpc (e? : Option String) (st : RunState) : RunState :=
  match e? with
  | some e => if e ≠ "" ∧ e ∉ st.epcList
              then { st with epcList := st.epcList ++ [e] } else st
  | none => st

/-- The source idiom `if (p.userData) { userData = p.userData }` of the
`63H` branch (JS truthiness excludes `undefined` and `""`). -/
def setUserData (u? : Option String) (st : RunState) : RunState :=
  match u? with
  | some u => if u ≠ "" then { st with userData := u } else st
  | none => st

/-- The command dispatch of the `packets.forEach` loop of
`runSingleTest` (`App.tsx` lines 289..321), applied after the raw bytes
were recorded.  (In the `64H` case the source guards the whole branch
with `p.status === 0x00 && p.epc`; since the branch only pushes the EPC
and `pushEpc` is the identity when the EPC is absent or empty, gating on
the status alone is the same function.) -/
def dispatchPacket (st1 : RunState) (p : DecodedPacket) : RunState :=
  if p.cmd = some 0x35 then
    { finishWith p.errorCode st1 with fwVersion := p.fwVersion.getD "" }
  else if p.cmd = some 0x70 then
    finishWith p.errorCode st1
  else if p.cmd = some 0x61 then
    let st2 := pushEpc p.epc st1
    if p.errorCode ≠ "N/A" then finishWith p.errorCode st2 else st2
  else if p.cmd = some 0x63 then
    let st2 := setUserData p.userData st1
    if p.errorCode ≠ "N/A" then finishWith p.errorCode st2 else st2
  else if p.cmd = some 0x64 then
    if p.status = some 0x01 then
      finishWith p.errorCode st1
    else if p.status = some 0x00 then
      pushEpc p.epc st1
    else st1
  else st1

/-- The body of the `packets.forEach` loop of `runSingleTest` (`App.tsx`
lines 285..322): skip frames whose raw bytes were already processed,
otherwise record the raw bytes and dispatch on the decoded command
byte. -/
def processPacket (st : RunState) (p : DecodedPacket) : RunState :=
  if p.raw ∈ st.processedRaw then st
  else dispatchPacket { st with processedRaw := p.raw :: st.processedRaw } p

/-- Processing of one scan's decoded packet list, in order. -/
def runScan (st : RunState) (ps : List DecodedPacket) : RunState :=
  ps.foldl processPacket st

/-- The outcome classification at the end of `runSingleTest` (`App.tsx`
lines 328..330).  The wait loop itself runs until `isFinished` is set or
the deadline `config.timeoutMs + 500` elapses; the classification is the
pure part. -/
def classifyOutcome (isFinished : Bool) (finalErrorCode : String) : String :=
  let isSuccess := isFinished && (finalErrorCode == "0001" || finalErrorCode == "0000")
  if isSuccess then "Success" else if isFinished then "Failure" else "Timeout"

/-- The `F1H` acknowledgment test of `runFirmwareUpdate` for page `i`
(`App.tsx` line 250): a decoded `F1H` frame echoing page `i` or `i - 1`
with the OK error code. -/
def f1AckMatch (i : Nat) (p : DecodedPacket) : Bool :=
  p.cmd == some 0xF1 &&
    (p.currentPacketNum == some i || p.currentPacketNum == some (i - 1)) &&
    p.errorCode == "0001"

/-- Page `i` is confirmed when the scanned packets contain an
acknowledgment (`pkts.find(..)`). -/
def pageConfirm (i : Nat) (pkts : List DecodedPacket) : Bool :=
  (pkts.find? (f1AckMatch i)).isSome

/-- The per-page decision of `runFirmwareUpdate` (`App.tsx` lines
246..254): an unconfirmed page throws, aborting the whole update as a
Failure; a confirmed page lets the transfer proceed. -/
def updatePageStep (i : Nat) (pkts : List DecodedPacket) : Except String Unit :=
  if pageConfirm i pkts then Except.ok () else Except.error "page write timeout"

/-- ASCII fragment of JS `toUpperCase` (version strings are ASCII). -/
def jsToUpperChar (c : Char) : Char :=
  if 'a' ≤ c ∧ c ≤ 'z' then Char.ofNat (c.toNat - 32) else c

/-- Model of JS `s.toUpperCase()` on the ASCII fragment. -/
def jsToUpperCase (s : String) : String :=
  String.mk (s.data.map jsToUpperChar)

/-- JS `u.replace(/^V/, '')`: drop a single leading capital `V`. -/
def stripLeadingV (s : String) : String :=
  match s.data with
  | 'V' :: rest => String.mk rest
  | _ => s

/-- Version normalization of `runFirmwareUpdate`
(`src/unnamed/part_000` lines 364..365): uppercase, then strip one
leading `V`. -/
def cleanVersion (s : String) : String :=
  stripLeadingV (jsToUpperCase s)

/-- The post-update completion check (`src/unnamed/part_000` lines
363..371): when an expected version was supplied (JS truthiness: a
non-empty string) and the normalized strings differ, throw a fatal
Failure reporting both strings; otherwise proceed to Success. -/
def versionCheck (fileVersion verifiedVersion : String) : Except String Unit :=
  if fileVersion ≠ "" then
    if cleanVersion fileVersion ≠ cleanVersion verifiedVersion then
      Except.error ("version mismatch, expected: " ++ fileVersion
        ++ ", actual: " ++ verifiedVersion)
    else Except.ok ()
  else Except.ok ()

/-- A concrete pair of decoded `64H` responses: one per-tag frame
(status 0) and one batch-finished frame (status 1). -/
def c5ExamplePackets : List DecodedPacket :=
  [{ cmd := some 0x64, status := some 0x00, id := some 1, count := some 1,
     errorCode := "0000", epc := some "AA BB CC DD", userData := none, fwVersion := none,
     updateCount := none, currentPacketNum := none, raw := "08 00 10 64 01 00 00" },
   { cmd := some 0x64, status := some 0x01, id := some 1, count := some 1,
     errorCode := "0001", epc := none, userData := none, fwVersion := none,
     updateCount := none, currentPacketNum := none, raw := "08 00 0B 64 01 00 01" }]


theorem scanFromFuel_of_len_le (f : Nat) (buffer : List Nat) (i : Nat)
    (h : buffer.length ≤ i) : scanFromFuel f buffer i = [] := by
  cases f with
  | zero => rfl
  | succ g => simp [scanFromFuel, h]

theorem scanFromFuel_congr : ∀ (f1 f2 : Nat) (buffer : List Nat) (i : Nat),
    buffer.length - i ≤ f1 → buffer.length - i ≤ f2 →
    scanFromFuel f1 buffer i = scanFromFuel f2 buffer i := by
  intro f1
  induction f1 with
  | zero =>
    intro f2 buffer i h1 _
    rw [scanFromFuel_of_len_le 0 buffer i (by omega),
      scanFromFuel_of_len_le f2 buffer i (by omega)]
  | succ g1 ih =>
    intro f2 buffer i h1 h2
    by_cases hlen : buffer.length ≤ i
    · rw [scanFromFuel_of_len_le _ buffer i hlen, scanFromFuel_of_len_le _ buffer i hlen]
    · cases f2 with
      | zero =>
        rw [scanFromFuel_of_len_le (g1 + 1) buffer i (by omega),
          scanFromFuel_of_len_le 0 buffer i (by omega)]
      | succ g2 =>
        show scanFromFuel (g1 + 1) buffer i = scanFromFuel (g2 + 1) buffer i
        simp only [scanFromFuel, if_neg hlen]
        by_cases h8 : buffer.getD i 0 = 0x08
        · simp only [if_pos h8]
          by_cases hhdr : i + 3 ≤ buffer.length
          · simp only [if_pos hhdr]
            by_cases hfit : i + dataLenAt buffer i + 3 ≤ buffer.length
            · simp only [if_pos hfit]
              rw [ih g2 buffer (i + dataLenAt buffer i + 3) (by omega) (by omega)]
            · simp only [if_neg hfit]
              exact ih g2 buffer (i + 1) (by omega) (by omega)
          · simp only [if_neg hhdr]
            exact ih g2 buffer (i + 1) (by omega) (by omega)
        · simp only [if_neg h8]
          exact ih g2 buffer (i + 1) (by omega) (by omega)

/-- One-step unfolding of the scan loop, fuel-free. -/
theorem scanFrom_eq (buffer : List Nat) (i : Nat) :
    scanFrom buffer i =
      if buffer.length ≤ i then []
      else if buffer.getD i 0 = 0x08 then
        if i + 3 ≤ buffer.length then
          if i + dataLenAt buffer i + 3 ≤ buffer.length then
            decodePacket ((buffer.drop i).take (dataLenAt buffer i + 3))
              :: scanFrom buffer (i + dataLenAt buffer i + 3)
          else scanFrom buffer (i + 1)
        else scanFrom buffer (i + 1)
      else scanFrom buffer (i + 1) := by
  by_cases hlen : buffer.length ≤ i
  · rw [if_pos hlen]
    exact scanFromFuel_of_len_le _ buffer i hlen
  · rw [if_neg hlen]
    unfold scanFrom
    have hfuel : buffer.length - i = (buffer.length - i - 1) + 1 := by omega
    rw [hfuel]
    simp only [scanFromFuel, if_neg hlen]
    by_cases h8 : buffer.getD i 0 = 0x08
    · simp only [if_pos h8]
      by_cases hhdr : i + 3 ≤ buffer.length
      · simp only [if_pos hhdr]
        by_cases hfit : i + dataLenAt buffer i + 3 ≤ buffer.length
        · simp only [if_pos hfit]
          rw [scanFromFuel_congr (buffer.length - i - 1)
            (buffer.length - (i + dataLenAt buffer i + 3)) buffer
            (i + dataLenAt buffer i + 3) (by omega) (by omega)]
        · simp only [if_neg hfit]
          exact scanFromFuel_congr _ _ buffer (i + 1) (by omega) (by omega)
      · simp only [if_neg hhdr]
        exact scanFromFuel_congr _ _ buffer (i + 1) (by omega) (by omega)
    · simp only [if_neg h8]
      exact scanFromFuel_congr _ _ buffer (i + 1) (by omega) (by omega)

theorem checksummed_append (body : List Nat) : checksummed (body ++ [calculateXOR body]) := by
  unfold checksummed
  simp

set_option linter.unusedVariables false in
/-- C1. For every command builder (`build64HRequest`, `build61HRequest`,
`build63HRequest`, `build35HRequest`, `build70HRequest`,
`buildF0HRequest`, `buildF1HRequest`, `buildF2HRequest`) and all valid
parameter values, the last byte of the returned frame equals the XOR of
all preceding bytes of that frame.  (The hypothesis on `data512`
delimits the valid domain of `buildF1HRequest`: the source writes the
payload at offset 7 of a 520-byte frame, so a JS payload longer than 513
bytes would make `packet.set` throw; the protocol always passes exactly
512 bytes.) -/
theorem c1_builders_checksum (id antenna power timeoutMs maxRecords count lenWord : Nat)
    (addrHex dataHex : String) (data512 : List Nat) (h : data512.length ≤ 513) :
    checksummed (build64HRequest id antenna power timeoutMs maxRecords) ∧
    checksummed (build61HRequest id antenna) ∧
    checksummed (build63HRequest id antenna addrHex lenWord) ∧
    checksummed (build35HRequest id) ∧
    checksummed (build70HRequest id antenna power addrHex lenWord dataHex) ∧
    checksummed (buildF0HRequest id) ∧
    checksummed (buildF1HRequest id count data512) ∧
    checksummed (buildF2HRequest id) := by
  refine ⟨?_, ?_, ?_, ?_, ?_, ?_, ?_, ?_⟩ <;> exact checksummed_append _

/-- Witness for C1 at concrete parameters. -/
theorem c1_builders_checksum_witness :
    (List.replicate 512 0).length ≤ 513 ∧
    (checksummed (build64HRequest 1 0 33 3000 10) ∧
     checksummed (build61HRequest 1 0) ∧
     checksummed (build63HRequest 1 0 "0000" 4) ∧
     checksummed (build35HRequest 1) ∧
     checksummed (build70HRequest 1 0 33 "0000" 4 "FFFF00000000000000000000") ∧
     checksummed (buildF0HRequest 1) ∧
     checksummed (buildF1HRequest 1 1 (List.replicate 512 0)) ∧
     checksummed (buildF2HRequest 1)) :=
  ⟨by rw [List.length_replicate]; omega,
   c1_builders_checksum 1 0 33 3000 10 1 4 "0000" "FFFF00000000000000000000"
    (List.replicate 512 0) (by rw [List.length_replicate]; omega)⟩

/-- C2. Calling `build64HRequest` with id=1, antenna=0, power=33,
timeoutMs=3000, maxRecords=10 returns exactly the 17-byte frame
`80 00 0E 64 01 00 00 21 00 00 0B B8 00 00 00 0A` followed by the XOR
checksum of the first 16 bytes (which evaluates to `0x73`). -/
theorem c2_build64h_example :
    build64HRequest 1 0 33 3000 10 =
      [0x80, 0x00, 0x0E, 0x64, 0x01, 0x00, 0x00, 0x21, 0x00, 0x00, 0x0B, 0xB8,
       0x00, 0x00, 0x00, 0x0A] ++
      [calculateXOR [0x80, 0x00, 0x0E, 0x64, 0x01, 0x00, 0x00, 0x21, 0x00, 0x00, 0x0B, 0xB8,
       0x00, 0x00, 0x00, 0x0A]] ∧
    build64HRequest 1 0 33 3000 10 =
      [0x80, 0x00, 0x0E, 0x64, 0x01, 0x00, 0x00, 0x21, 0x00, 0x00, 0x0B, 0xB8,
       0x00, 0x00, 0x00, 0x0A, 0x73] ∧
    (build64HRequest 1 0 33 3000 10).length = 17 := by
  decide

/-- Counterexample to C3 as stated.  The buffer below holds, at position
0, the byte `0x08` with a length field claiming 13 total bytes while
only 9 are available; the claim says the scanner then stops and reports
no further packets from the remainder, yet `scanAllPackets` reports the
complete frame `08 00 02 70 00` found at position 3, inside the
truncated frame's claimed extent. -/
theorem c3_counterexample :
    dataLenAt [0x08, 0x00, 0x0A, 0x08, 0x00, 0x02, 0x70, 0x00, 0x00] 0 = 10 ∧
    (scanAllPackets [0x08, 0x00, 0x0A, 0x08, 0x00, 0x02, 0x70, 0x00, 0x00] "64H").map
        DecodedPacket.raw = ["08 00 02 70 00"] ∧
    scanAllPackets [0x08, 0x00, 0x0A, 0x08, 0x00, 0x02, 0x70, 0x00, 0x00] "64H" ≠ [] := by
  decide

set_option linter.unusedVariables false in
/-- C3 (amended).  When the scan reaches a position `i` holding the
response start byte `0x08` whose 2-byte length field claims a frame
extending past the end of the buffer, it reports no decoded packet for
that frame and advances the scan by one byte, continuing over the
remainder of the buffer: the scan result from `i` equals the scan result
from `i + 1`, so frames starting later in the buffer are still
reported. -/
theorem c3_truncated_header_skips (buffer : List Nat) (i : Nat)
    (h1 : i < buffer.length) (h2 : buffer.getD i 0 = 0x08)
    (h3 : i + 3 ≤ buffer.length)
    (h4 : buffer.length < i + dataLenAt buffer i + 3) :
    scanFrom buffer i = scanFrom buffer (i + 1) := by
  rw [scanFrom_eq buffer i]
  rw [if_neg (by omega), if_pos h2, if_pos h3, if_neg (by omega)]

/-- Witness for the amended C3 at a concrete buffer and position. -/
theorem c3_truncated_header_skips_witness :
    (0 < ([0x08, 0x00, 0x0A, 0x08, 0x00, 0x02, 0x70, 0x00, 0x00] : List Nat).length ∧
     ([0x08, 0x00, 0x0A, 0x08, 0x00, 0x02, 0x70, 0x00, 0x00] : List Nat).getD 0 0 = 0x08 ∧
     0 + 3 ≤ ([0x08, 0x00, 0x0A, 0x08, 0x00, 0x02, 0x70, 0x00, 0x00] : List Nat).length ∧
     ([0x08, 0x00, 0x0A, 0x08, 0x00, 0x02, 0x70, 0x00, 0x00] : List Nat).length <
       0 + dataLenAt [0x08, 0x00, 0x0A, 0x08, 0x00, 0x02, 0x70, 0x00, 0x00] 0 + 3) ∧
    scanFrom [0x08, 0x00, 0x0A, 0x08, 0x00, 0x02, 0x70, 0x00, 0x00] 0 =
      scanFrom [0x08, 0x00, 0x0A, 0x08, 0x00, 0x02, 0x70, 0x00, 0x00] 1 :=
  ⟨⟨by decide, by decide, by decide, by decide⟩,
    c3_truncated_header_skips _ 0 (by decide) (by decide) (by decide) (by decide)⟩

theorem scanFrom_append_aux (B E : List Nat) (hB : noTruncatedHeader B) :
    ∀ n i, B.length - i ≤ n → ∃ t, scanFrom (B ++ E) i = scanFrom B i ++ t := by
  intro n
  induction n with
  | zero =>
    intro i h
    rw [scanFrom_eq B i, if_pos (show B.length ≤ i by omega)]
    exact ⟨scanFrom (B ++ E) i, by simp⟩
  | succ m ih =>
    intro i hle
    by_cases hi : B.length ≤ i
    · rw [scanFrom_eq B i, if_pos hi]
      exact ⟨scanFrom (B ++ E) i, by simp⟩
    · have hget : (B ++ E).getD i 0 = B.getD i 0 := List.getD_append B E 0 i (by omega)
      have hlenBE : ¬ ((B ++ E).length ≤ i) := by
        simp only [List.length_append]; omega
      by_cases h8 : B.getD i 0 = 0x08
      · have hnt := hB i (by omega)
        have h3 : i + 3 ≤ B.length := by
          by_contra hc
          exact hnt ⟨h8, Or.inl (by omega)⟩
        have hfit : i + dataLenAt B i + 3 ≤ B.length := by
          by_contra hc
          exact hnt ⟨h8, Or.inr (by omega)⟩
        have hdl : dataLenAt (B ++ E) i = dataLenAt B i := by
          unfold dataLenAt
          rw [List.getD_append B E 0 (i+1) (by omega), List.getD_append B E 0 (i+2) (by omega)]
        have hslice : ((B ++ E).drop i).take (dataLenAt B i + 3)
            = (B.drop i).take (dataLenAt B i + 3) := by
          rw [List.drop_append_of_le_length (by omega),
            List.take_append_of_le_length (by simp; omega)]
        obtain ⟨t, ht⟩ := ih (i + dataLenAt B i + 3) (by omega)
        refine ⟨t, ?_⟩
        rw [scanFrom_eq B i, if_neg hi, if_pos h8, if_pos h3, if_pos hfit]
        rw [scanFrom_eq (B ++ E) i, if_neg hlenBE, hget, hdl, if_pos h8,
          if_pos (show i + 3 ≤ (B ++ E).length by simp only [List.length_append]; omega),
          if_pos (show i + dataLenAt B i + 3 ≤ (B ++ E).length by
            simp only [List.length_append]; omega),
          hslice, ht]
        simp
      · obtain ⟨t, ht⟩ := ih (i + 1) (by omega)
        refine ⟨t, ?_⟩
        rw [scanFrom_eq B i, if_neg hi, if_neg h8]
        rw [scanFrom_eq (B ++ E) i, if_neg hlenBE, hget, if_neg h8, ht]

/-- Counterexample to C4 as stated.  The first buffer holds a truncated
frame header at position 0 (claiming 13 bytes of 9 available) and a
complete inner frame `08 00 02 70 00` at position 3; appending four more
bytes completes the outer frame, which then swallows the inner one, so
the packet decoded from the inner frame is reported for `B` but not for
`B ++ E`. -/
theorem c4_counterexample :
    ({ cmd := some 0x70, status := none, id := some 0, count := none,
       errorCode := "N/A", epc := none, userData := none, fwVersion := none,
       updateCount := none, currentPacketNum := none,
       raw := "08 00 02 70 00" } : DecodedPacket) ∈
      scanAllPackets [0x08, 0x00, 0x0A, 0x08, 0x00, 0x02, 0x70, 0x00, 0x00] "64H" ∧
    ({ cmd := some 0x70, status := none, id := some 0, count := none,
       errorCode := "N/A", epc := none, userData := none, fwVersion := none,
       updateCount := none, currentPacketNum := none,
       raw := "08 00 02 70 00" } : DecodedPacket) ∉
      scanAllPackets ([0x08, 0x00, 0x0A, 0x08, 0x00, 0x02, 0x70, 0x00, 0x00]
        ++ [0x00, 0x00, 0x00, 0x00]) "64H" := by
  decide

/-- C4 (amended).  Provided the buffer `B` contains no truncated frame
header (`noTruncatedHeader B`), every decoded packet that
`scanAllPackets` reports for `B` is also reported for `B ++ E`, for any
appended bytes `E`; a caller that tracks raw bytes already seen then
never treats a frame fully contained in `B` as new.  (The hypothesis is
necessary: completing a previously truncated frame may swallow a frame
reported earlier, see the counterexample.) -/
theorem c4_scan_monotone_of_no_truncated (B E : List Nat) (c : String) (p : DecodedPacket)
    (hB : noTruncatedHeader B) (hp : p ∈ scanAllPackets B c) :
    p ∈ scanAllPackets (B ++ E) c := by
  obtain ⟨t, ht⟩ := scanFrom_append_aux B E hB B.length 0 (by omega)
  show p ∈ scanFrom (B ++ E) 0
  rw [ht]
  exact List.mem_append_left t hp

/-- Witness for the amended C4 at a concrete buffer and extension. -/
theorem c4_scan_monotone_witness :
    (noTruncatedHeader [0x08, 0x00, 0x02, 0x70, 0x00] ∧
     ({ cmd := some 0x70, status := none, id := some 0, count := none,
        errorCode := "N/A", epc := none, userData := none, fwVersion := none,
        updateCount := none, currentPacketNum := none,
        raw := "08 00 02 70 00" } : DecodedPacket) ∈
       scanAllPackets [0x08, 0x00, 0x02, 0x70, 0x00] "64H") ∧
    ({ cmd := some 0x70, status := none, id := some 0, count := none,
       errorCode := "N/A", epc := none, userData := none, fwVersion := none,
       updateCount := none, currentPacketNum := none,
       raw := "08 00 02 70 00" } : DecodedPacket) ∈
      scanAllPackets ([0x08, 0x00, 0x02, 0x70, 0x00] ++ [0xFF]) "64H" :=
  ⟨⟨by decide, by decide⟩,
    c4_scan_monotone_of_no_truncated [0x08, 0x00, 0x02, 0x70, 0x00] [0xFF] "64H" _
      (by decide) (by decide)⟩

theorem scanFromFuel_length_bound : ∀ (f : Nat) (buffer : List Nat) (i : Nat),
    3 * (scanFromFuel f buffer i).length ≤ buffer.length - i := by
  intro f
  induction f with
  | zero =>
    intro buffer i
    simp [scanFromFuel]
  | succ g ih =>
    intro buffer i
    by_cases hlen : buffer.length ≤ i
    · rw [scanFromFuel_of_len_le _ buffer i hlen]
      simp
    · show 3 * (scanFromFuel (g + 1) buffer i).length ≤ buffer.length - i
      simp only [scanFromFuel, if_neg hlen]
      by_cases h8 : buffer.getD i 0 = 0x08
      · simp only [if_pos h8]
        by_cases hhdr : i + 3 ≤ buffer.length
        · simp only [if_pos hhdr]
          by_cases hfit : i + dataLenAt buffer i + 3 ≤ buffer.length
          · simp only [if_pos hfit, List.length_cons]
            have := ih buffer (i + dataLenAt buffer i + 3)
            omega
          · simp only [if_neg hfit]
            have := ih buffer (i + 1)
            omega
        · simp only [if_neg hhdr]
          have := ih buffer (i + 1)
          omega
      · simp only [if_neg h8]
        have := ih buffer (i + 1)
        omega

/-- C9. `scanAllPackets` is a total function: it is defined, in Lean,
without any partiality escape hatch, so for every byte buffer of any
content and length and every expected-command argument it returns a
(possibly empty) list of decoded packets — the shallow-embedding
rendering of "never throws" on malformed, truncated, or arbitrary
trailing bytes.  The returned list is moreover finite with an explicit
bound: each reported packet consumes at least three buffer bytes. -/
theorem c9_scan_total_bound (buffer : List Nat) (expectedCmd : String) :
    3 * (scanAllPackets buffer expectedCmd).length ≤ buffer.length := by
  have := scanFromFuel_length_bound (buffer.length - 0) buffer 0
  show 3 * (scanFromFuel (buffer.length - 0) buffer 0).length ≤ buffer.length
  omega

/-- C10. The result of `scanAllPackets` is independent of its
expected-command argument: the source binds the parameter but never
consults it, so the definition ignores it and the two scans are equal
definitionally. -/
theorem c10_scan_ignores_expected_cmd (buffer : List Nat) (c1 c2 : String) :
    scanAllPackets buffer c1 = scanAllPackets buffer c2 := rfl



theorem finishWith_isFinished (c : String) (st : RunState) :
    (finishWith c st).isFinished = true := rfl

theorem finishWith_processedRaw (c : String) (st : RunState) :
    (finishWith c st).processedRaw = st.processedRaw := rfl

theorem finishWith_epcList (c : String) (st : RunState) :
    (finishWith c st).epcList = st.epcList := rfl

theorem pushEpc_isFinished (e? : Option String) (st : RunState) :
    (pushEpc e? st).isFinished = st.isFinished := by
  cases e? with
  | none => rfl
  | some e => simp only [pushEpc]; split <;> rfl

theorem pushEpc_processedRaw (e? : Option String) (st : RunState) :
    (pushEpc e? st).processedRaw = st.processedRaw := by
  cases e? with
  | none => rfl
  | some e => simp only [pushEpc]; split <;> rfl

theorem pushEpc_epcList_mono (e? : Option String) (st : RunState) (x : String)
    (h : x ∈ st.epcList) : x ∈ (pushEpc e? st).epcList := by
  cases e? with
  | none => exact h
  | some e =>
    simp only [pushEpc]
    split
    · exact List.mem_append_left _ h
    · exact h

theorem pushEpc_mem (e : String) (st : RunState) (he : e ≠ "") :
    e ∈ (pushEpc (some e) st).epcList := by
  simp only [pushEpc]
  split
  · simp
  · next h =>
    simp only [not_and, not_not] at h
    exact h he

theorem pushEpc_nodup (e? : Option String) (st : RunState)
    (h : st.epcList.Nodup) : (pushEpc e? st).epcList.Nodup := by
  cases e? with
  | none => exact h
  | some e =>
    simp only [pushEpc]
    split
    · next h' =>
      rw [List.nodup_append]
      refine ⟨h, List.nodup_singleton e, ?_⟩
      intro a ha hb
      rw [List.mem_singleton] at hb
      subst hb
      exact h'.2 ha
    · exact h

theorem setUserData_isFinished (u? : Option String) (st : RunState) :
    (setUserData u? st).isFinished = st.isFinished := by
  cases u? with
  | none => rfl
  | some u => simp only [setUserData]; split <;> rfl

theorem setUserData_processedRaw (u? : Option String) (st : RunState) :
    (setUserData u? st).processedRaw = st.processedRaw := by
  cases u? with
  | none => rfl
  | some u => simp only [setUserData]; split <;> rfl

theorem setUserData_epcList (u? : Option String) (st : RunState) :
    (setUserData u? st).epcList = st.epcList := by
  cases u? with
  | none => rfl
  | some u => simp only [setUserData]; split <;> rfl



theorem dispatchPacket_isFinished_mono (st : RunState) (p : DecodedPacket)
    (h : st.isFinished = true) : (dispatchPacket st p).isFinished = true := by
  unfold dispatchPacket
  repeat' split <;>
    first
      | rfl
      | assumption
      | (simp_all [finishWith_isFinished, pushEpc_isFinished, setUserData_isFinished]; done)
      | skip

theorem dispatchPacket_processedRaw (st : RunState) (p : DecodedPacket) :
    (dispatchPacket st p).processedRaw = st.processedRaw := by
  unfold dispatchPacket
  repeat' split <;>
    first
      | rfl
      | assumption
      | (simp_all [finishWith_processedRaw, pushEpc_processedRaw, setUserData_processedRaw]; done)
      | skip

theorem dispatchPacket_epcList_mono (st : RunState) (p : DecodedPacket)
    (x : String) (h : x ∈ st.epcList) : x ∈ (dispatchPacket st p).epcList := by
  unfold dispatchPacket
  repeat' split <;>
    first
      | rfl
      | assumption
      | (simp_all [finishWith_epcList, setUserData_epcList, pushEpc_epcList_mono]; done)
      | skip

theorem dispatchPacket_64_finished_iff (st : RunState) (p : DecodedPacket)
    (h64 : p.cmd = some 0x64) :
    ((dispatchPacket st p).isFinished = true ↔
      (st.isFinished = true ∨ p.status = some 0x01)) := by
  unfold dispatchPacket
  rw [if_neg (by simp [h64]), if_neg (by simp [h64]), if_neg (by simp [h64]),
    if_neg (by simp [h64]), if_pos h64]
  split
  · next h1 => simp [finishWith_isFinished, h1]
  · next h1 =>
    split
    · simp [pushEpc_isFinished, h1]
    · simp [h1]

theorem dispatchPacket_64_status0_epc (st : RunState) (p : DecodedPacket) (e : String)
    (h64 : p.cmd = some 0x64) (hst : p.status = some 0x00)
    (hepc : p.epc = some e) (he : e ≠ "") :
    e ∈ (dispatchPacket st p).epcList := by
  unfold dispatchPacket
  rw [if_neg (by simp [h64]), if_neg (by simp [h64]), if_neg (by simp [h64]),
    if_neg (by simp [h64]), if_pos h64, if_neg (by simp [hst]), if_pos hst, hepc]
  exact pushEpc_mem e _ he

theorem dispatchPacket_epcList_nodup (st : RunState) (p : DecodedPacket)
    (h : st.epcList.Nodup) : (dispatchPacket st p).epcList.Nodup := by
  unfold dispatchPacket
  repeat' split <;>
    first
      | rfl
      | assumption
      | (simp_all [finishWith_epcList, setUserData_epcList, pushEpc_nodup]; done)
      | skip



theorem dispatchPacket_64_not1_isFinished (st : RunState) (p : DecodedPacket)
    (h64 : p.cmd = some 0x64) (hne : p.status ≠ some 0x01) :
    (dispatchPacket st p).isFinished = st.isFinished := by
  unfold dispatchPacket
  rw [if_neg (by simp [h64]), if_neg (by simp [h64]), if_neg (by simp [h64]),
    if_neg (by simp [h64]), if_pos h64, if_neg hne]
  split
  · exact pushEpc_isFinished _ _
  · rfl

theorem processPacket_isFinished_mono (st : RunState) (p : DecodedPacket)
    (h : st.isFinished = true) : (processPacket st p).isFinished = true := by
  unfold processPacket
  split
  · exact h
  · exact dispatchPacket_isFinished_mono _ p h

theorem processPacket_processedRaw_sub (st : RunState) (p : DecodedPacket)
    (r : String) (h : r ∈ (processPacket st p).processedRaw) :
    r ∈ st.processedRaw ∨ r = p.raw := by
  unfold processPacket at h
  revert h
  split
  · exact fun h => Or.inl h
  · rw [dispatchPacket_processedRaw]
    intro h
    rcases List.mem_cons.mp h with h | h
    · exact Or.inr h
    · exact Or.inl h

theorem processPacket_epcList_mono (st : RunState) (p : DecodedPacket)
    (x : String) (h : x ∈ st.epcList) : x ∈ (processPacket st p).epcList := by
  unfold processPacket
  split
  · exact h
  · exact dispatchPacket_epcList_mono _ p x h

theorem processPacket_64_finished_iff (st : RunState) (p : DecodedPacket)
    (h64 : p.cmd = some 0x64) :
    ((processPacket st p).isFinished = true ↔
      (st.isFinished = true ∨ (p.raw ∉ st.processedRaw ∧ p.status = some 0x01))) := by
  unfold processPacket
  split
  · next hmem => simp [hmem]
  · next hmem =>
    rw [dispatchPacket_64_finished_iff _ p h64]
    simp [hmem]

theorem processPacket_64_not1_isFinished (st : RunState) (p : DecodedPacket)
    (h64 : p.cmd = some 0x64) (hne : p.status ≠ some 0x01) :
    (processPacket st p).isFinished = st.isFinished := by
  unfold processPacket
  split
  · rfl
  · rw [dispatchPacket_64_not1_isFinished _ p h64 hne]

theorem processPacket_64_status0_epc (st : RunState) (p : DecodedPacket) (e : String)
    (hraw : p.raw ∉ st.processedRaw) (h64 : p.cmd = some 0x64)
    (hst : p.status = some 0x00) (hepc : p.epc = some e) (he : e ≠ "") :
    e ∈ (processPacket st p).epcList := by
  unfold processPacket
  rw [if_neg hraw]
  exact dispatchPacket_64_status0_epc _ p e h64 hst hepc he

theorem processPacket_epcList_nodup (st : RunState) (p : DecodedPacket)
    (h : st.epcList.Nodup) : (processPacket st p).epcList.Nodup := by
  unfold processPacket
  split
  · exact h
  · exact dispatchPacket_epcList_nodup _ p h

theorem runScan_isFinished_mono (ps : List DecodedPacket) : ∀ st : RunState,
    st.isFinished = true → (runScan st ps).isFinished = true := by
  induction ps with
  | nil => intro st h; exact h
  | cons q rest ih =>
    intro st h
    exact ih (processPacket st q) (processPacket_isFinished_mono st q h)

theorem runScan_epcList_mono (ps : List DecodedPacket) : ∀ (st : RunState) (x : String),
    x ∈ st.epcList → x ∈ (runScan st ps).epcList := by
  induction ps with
  | nil => intro st x h; exact h
  | cons q rest ih =>
    intro st x h
    exact ih (processPacket st q) x (processPacket_epcList_mono st q x h)

theorem runScan_epcList_nodup (ps : List DecodedPacket) : ∀ st : RunState,
    st.epcList.Nodup → (runScan st ps).epcList.Nodup := by
  induction ps with
  | nil => intro st h; exact h
  | cons q rest ih =>
    intro st h
    exact ih (processPacket st q) (processPacket_epcList_nodup st q h)

theorem runScan_finished_forward (ps : List DecodedPacket) :
    ∀ st : RunState, (∀ p ∈ ps, p.cmd = some 0x64) →
    (runScan st ps).isFinished = true →
    st.isFinished = true ∨ ∃ p ∈ ps, p.status = some 0x01 := by
  induction ps with
  | nil => intro st _ h; exact Or.inl h
  | cons q rest ih =>
    intro st hall h
    have h64 : q.cmd = some 0x64 := hall q (List.mem_cons_self q rest)
    rcases ih (processPacket st q) (fun p hp => hall p (List.mem_cons_of_mem q hp)) h with
      hfin | ⟨p, hp, hps⟩
    · rcases (processPacket_64_finished_iff st q h64).mp hfin with h' | ⟨_, hst⟩
      · exact Or.inl h'
      · exact Or.inr ⟨q, List.mem_cons_self q rest, hst⟩
    · exact Or.inr ⟨p, List.mem_cons_of_mem q hp, hps⟩

theorem runScan_finished_reverse (ps : List DecodedPacket) :
    ∀ (st : RunState) (p : DecodedPacket),
    (∀ a ∈ ps, ∀ b ∈ ps, a.raw = b.raw → a = b) →
    p ∈ ps → p.cmd = some 0x64 → p.status = some 0x01 →
    (p.raw ∉ st.processedRaw ∨ st.isFinished = true) →
    (runScan st ps).isFinished = true := by
  induction ps with
  | nil =>
    intro st p _ hp
    exact absurd hp (List.not_mem_nil p)
  | cons q rest ih =>
    intro st p hcons hp h64 hst hinv
    rcases hinv with hraw | hfin
    · rcases List.mem_cons.mp hp with rfl | hp'
      · have hfin1 : (processPacket st p).isFinished = true :=
          (processPacket_64_finished_iff st p h64).mpr (Or.inr ⟨hraw, hst⟩)
        exact runScan_isFinished_mono rest _ hfin1
      · by_cases hqr : q.raw = p.raw
        · have hqp : q = p :=
            hcons q (List.mem_cons_self q rest) p (List.mem_cons_of_mem q hp') hqr
          subst hqp
          have hfin1 : (processPacket st q).isFinished = true :=
            (processPacket_64_finished_iff st q h64).mpr (Or.inr ⟨hraw, hst⟩)
          exact runScan_isFinished_mono rest _ hfin1
        · refine ih (processPacket st q) p
            (fun a ha b hb => hcons a (List.mem_cons_of_mem q ha) b (List.mem_cons_of_mem q hb))
            hp' h64 hst (Or.inl ?_)
          intro hmem
          rcases processPacket_processedRaw_sub st q p.raw hmem with h' | h'
          · exact hraw h'
          · exact hqr h'.symm
    · exact runScan_isFinished_mono rest _ (processPacket_isFinished_mono st q hfin)

theorem runScan_64_not1 (ps : List DecodedPacket) : ∀ st : RunState,
    (∀ p ∈ ps, p.cmd = some 0x64 ∧ p.status ≠ some 0x01) →
    (runScan st ps).isFinished = st.isFinished := by
  induction ps with
  | nil => intro st _; rfl
  | cons q rest ih =>
    intro st hall
    have hq := hall q (List.mem_cons_self q rest)
    rw [show runScan st (q :: rest) = runScan (processPacket st q) rest from rfl,
      ih (processPacket st q) (fun p hp => hall p (List.mem_cons_of_mem q hp)),
      processPacket_64_not1_isFinished st q hq.1 hq.2]

theorem runScan_status0_epc (ps : List DecodedPacket) :
    ∀ (st : RunState) (p : DecodedPacket) (e : String),
    (∀ a ∈ ps, ∀ b ∈ ps, a.raw = b.raw → a = b) →
    p ∈ ps → p.cmd = some 0x64 → p.status = some 0x00 → p.epc = some e → e ≠ "" →
    (p.raw ∉ st.processedRaw ∨ e ∈ st.epcList) →
    e ∈ (runScan st ps).epcList := by
  induction ps with
  | nil =>
    intro st p e _ hp
    exact absurd hp (List.not_mem_nil p)
  | cons q rest ih =>
    intro st p e hcons hp h64 hst hepc he hinv
    rcases hinv with hraw | hmem
    · rcases List.mem_cons.mp hp with rfl | hp'
      · exact runScan_epcList_mono rest _ e
          (processPacket_64_status0_epc st p e hraw h64 hst hepc he)
      · by_cases hqr : q.raw = p.raw
        · have hqp : q = p :=
            hcons q (List.mem_cons_self q rest) p (List.mem_cons_of_mem q hp') hqr
          subst hqp
          exact runScan_epcList_mono rest _ e
            (processPacket_64_status0_epc st q e hraw h64 hst hepc he)
        · refine ih (processPacket st q) p e
            (fun a ha b hb => hcons a (List.mem_cons_of_mem q ha) b (List.mem_cons_of_mem q hb))
            hp' h64 hst hepc he (Or.inl ?_)
          intro hmem'
          rcases processPacket_processedRaw_sub st q p.raw hmem' with h' | h'
          · exact hraw h'
          · exact hqr h'.symm
    · exact runScan_epcList_mono rest _ e (processPacket_epcList_mono st q e hmem)



/-- C5. In the single-cycle executor running command `64H`, processing a
scan's decoded `64H` responses sets the completion flag (ending the
wait) iff one of them has status byte `0x01` (batch finished), however
many status-`0x00` per-tag frames precede it in the same buffer;
status-`0x00` frames never finish the cycle and only add their EPC to
the deduplicated tag list.  The consistency hypothesis `hcons` states
that packets with identical raw bytes are identical, which holds for
packets decoded from raw frames. -/
theorem c5_batch_finished_classification (ps : List DecodedPacket)
    (hcons : ∀ a ∈ ps, ∀ b ∈ ps, a.raw = b.raw → a = b)
    (hall : ∀ p ∈ ps, p.cmd = some 0x64) :
    ((runScan initRunState ps).isFinished = true ↔ ∃ p ∈ ps, p.status = some 0x01) ∧
    ((∀ p ∈ ps, p.status ≠ some 0x01) → (runScan initRunState ps).isFinished = false) ∧
    ((∀ p ∈ ps, p.status = some 0x00) →
      (runScan initRunState ps).epcList.Nodup ∧
      ∀ p ∈ ps, ∀ e, p.epc = some e → e ≠ "" → e ∈ (runScan initRunState ps).epcList) := by
  refine ⟨⟨?_, ?_⟩, ?_, ?_⟩
  · intro h
    rcases runScan_finished_forward ps initRunState hall h with h' | h'
    · simp [initRunState] at h'
    · exact h'
  · rintro ⟨p, hp, hst⟩
    exact runScan_finished_reverse ps initRunState p hcons hp (hall p hp) hst
      (Or.inl (by simp [initRunState]))
  · intro hne
    rw [runScan_64_not1 ps initRunState (fun p hp => ⟨hall p hp, hne p hp⟩)]
    rfl
  · intro h0
    refine ⟨runScan_epcList_nodup ps initRunState (by simp [initRunState]), ?_⟩
    intro p hp e hepc he
    exact runScan_status0_epc ps initRunState p e hcons hp (hall p hp) (h0 p hp) hepc he
      (Or.inl (by simp [initRunState]))


/-- Witness for C5: a status-0 tag frame followed by a status-1
batch-finished frame finishes the cycle. -/
theorem c5_batch_finished_classification_witness :
    ((∀ a ∈ c5ExamplePackets, ∀ b ∈ c5ExamplePackets, a.raw = b.raw → a = b) ∧
     (∀ p ∈ c5ExamplePackets, p.cmd = some 0x64)) ∧
    ((runScan initRunState c5ExamplePackets).isFinished = true ↔
      ∃ p ∈ c5ExamplePackets, p.status = some 0x01) :=
  ⟨⟨by decide, by decide⟩, (c5_batch_finished_classification c5ExamplePackets (by decide) (by decide)).1⟩


/-- C6. Every run of the single-cycle executor resolves to exactly one
of three outcomes: Success when a completion frame was seen
(`isFinished`) and the final error code is one of the two OK sentinel
codes `"0001"` / `"0000"`; Failure when a completion frame was seen with
any other code; Timeout when the wait ended (deadline
`config.timeoutMs + 500` elapsed) with no completion frame. -/
theorem c6_outcome_trichotomy (f : Bool) (c : String) :
    (classifyOutcome f c = "Success" ↔ (f = true ∧ (c = "0001" ∨ c = "0000"))) ∧
    (classifyOutcome f c = "Failure" ↔ (f = true ∧ c ≠ "0001" ∧ c ≠ "0000")) ∧
    (classifyOutcome f c = "Timeout" ↔ f = false) := by
  unfold classifyOutcome
  cases f <;> by_cases h1 : c = "0001" <;> by_cases h2 : c = "0000" <;>
    simp_all

set_option linter.unusedVariables false in
/-- C7. During the firmware-update transfer, page `i` is confirmed iff
the decoded packets contain an `F1H` response whose echoed page counter
equals `i` or `i - 1` and whose error code is the OK code `"0001"`; an
`F1H` response echoing any other page number does not confirm page `i`,
and a page that is never confirmed aborts the whole update as a Failure
(`updatePageStep` throws).  Pages are numbered from 1. -/
theorem c7_page_ack_tolerance (i : Nat) (pkts : List DecodedPacket) (h : 1 ≤ i) :
    (pageConfirm i pkts = true ↔ ∃ p ∈ pkts, p.cmd = some 0xF1 ∧
      (p.currentPacketNum = some i ∨ p.currentPacketNum = some (i - 1)) ∧
      p.errorCode = "0001") ∧
    (pageConfirm i pkts = false → updatePageStep i pkts = Except.error "page write timeout") ∧
    (pageConfirm i pkts = true → updatePageStep i pkts = Except.ok ()) := by
  refine ⟨?_, ?_, ?_⟩
  · unfold pageConfirm
    rw [List.find?_isSome]
    constructor
    · rintro ⟨p, hp, hm⟩
      refine ⟨p, hp, ?_⟩
      unfold f1AckMatch at hm
      simp only [Bool.and_eq_true, Bool.or_eq_true, beq_iff_eq] at hm
      tauto
    · rintro ⟨p, hp, h1, h2, h3⟩
      refine ⟨p, hp, ?_⟩
      unfold f1AckMatch
      simp only [Bool.and_eq_true, Bool.or_eq_true, beq_iff_eq]
      tauto
  · intro h'
    simp [updatePageStep, h']
  · intro h'
    simp [updatePageStep, h']

/-- Witness for C7: an `F1H` acknowledgment echoing page 0 with the OK
code confirms page 1. -/
theorem c7_page_ack_tolerance_witness :
    1 ≤ 1 ∧
    (pageConfirm 1
        [{ cmd := some 0xF1, status := none, id := some 1, count := none,
           errorCode := "0001", epc := none, userData := none, fwVersion := none,
           updateCount := none, currentPacketNum := some 0,
           raw := "08 00 06 F1 01 00 00 00 01 FF" }] = true ↔
      ∃ p ∈ [({ cmd := some 0xF1, status := none, id := some 1, count := none,
                errorCode := "0001", epc := none, userData := none, fwVersion := none,
                updateCount := none, currentPacketNum := some 0,
                raw := "08 00 06 F1 01 00 00 00 01 FF" } : DecodedPacket)],
        p.cmd = some 0xF1 ∧
          (p.currentPacketNum = some 1 ∨ p.currentPacketNum = some (1 - 1)) ∧
          p.errorCode = "0001") :=
  ⟨by decide, (c7_page_ack_tolerance 1 _ (by decide)).1⟩

/-- C8. The post-update version check compares the expected and observed
version strings case-insensitively after stripping one leading `V` from
each side (both sides are uppercased first, so the prefix may be `v` or
`V`): `"V1.2.3"` matches `"1.2.3"`.  When an expected version was
supplied (non-empty) and the normalized strings differ, the update is a
fatal Failure reporting both strings; when they match, or no expected
version was supplied, the check passes and the update is a Success. -/
theorem c8_version_check (f v : String) :
    (versionCheck f v = Except.ok () ↔ (f = "" ∨ cleanVersion f = cleanVersion v)) ∧
    (f ≠ "" → cleanVersion f ≠ cleanVersion v →
      versionCheck f v = Except.error ("version mismatch, expected: " ++ f
        ++ ", actual: " ++ v)) ∧
    (∀ s t : String, jsToUpperCase s = jsToUpperCase t → cleanVersion s = cleanVersion t) ∧
    versionCheck "V1.2.3" "1.2.3" = Except.ok () := by
  refine ⟨?_, ?_, ?_, ?_⟩
  · unfold versionCheck
    by_cases h1 : f = "" <;> by_cases h2 : cleanVersion f = cleanVersion v <;>
      simp_all
  · intro h1 h2
    simp [versionCheck, h1, h2]
  · intro s t hst
    unfold cleanVersion
    rw [hst]
  · rfl

end RFID
